import Mathlib

/-!
Verification of the phone-a-friend MCP server against its design spec.

This file gives a shallow embedding of the relevant source code:

* `src/util.ts` — pure helpers (`wrapPrompt`, `generateWorktreePath`,
  `promptSizeWarning` and the constants they use);
* `src/git.ts` — git plumbing (`removeWorktree`, `captureChanges`,
  `readAndRemoveResponse`, `getHeadSha`), modelled over an explicit
  repository / worktree state;
* `src/index.ts` — the `phone_a_friend` tool handler, modelled as a
  deterministic function of an environment that fixes every external
  outcome (repo detection, subprocess success, the agent script, the
  clock and random draw), producing both the MCP result and a trace of
  the side-effecting git operations in the order the code performs them.

JavaScript specifics are embedded explicitly: template-literal
interpolation of a number is `numberToString`, the truthiness test on a
`string | null` is `jsTruthy`, and `String.prototype.trim` is `jsTrim`.
-/

/-- Embedding of `RESPONSE_FILENAME` from `src/util.ts`. -/
def RESPONSE_FILENAME : String := ".paf-response.md"

/-- Embedding of `TOOL_MODES` / `ToolMode` from `src/util.ts`. -/
inductive ToolMode where
  | default
  | query
deriving DecidableEq, Repr

/-- Decimal rendering of a natural number, as JavaScript template-literal
interpolation of an integral number produces (`${timestamp}`,
`${exitCode}`, `${sizeKB}`). Defined over `Nat.digits` so that
injectivity is provable. -/
def numberToString (n : Nat) : String :=
  if n = 0 then "0"
  else String.mk (((Nat.digits 10 n).reverse).map (fun d => Char.ofNat (48 + d)))

/-- Chunk of the query-mode template of `wrapPrompt` before the first
interpolation of `RESPONSE_FILENAME`. -/
def wrapQueryA : String :=
  "## CRITICAL INSTRUCTIONS — READ BEFORE DOING ANYTHING\n\nYou are operating as a subagent inside an isolated git worktree for reference only. Any file changes you make will be discarded. Focus on analysis and your written response.\n\n1. **Do NOT modify files.** Any changes will be thrown away. The repository is available for you to read, not to edit.\n2. **When you are finished**, write your complete final response to the file `"

/-- Chunk of the query-mode template between the two interpolations of
`RESPONSE_FILENAME`. -/
def wrapQueryB : String :=
  "` in the repository root. This file is your ONLY communication channel back to the calling agent. Include:\n   - Your analysis or answer\n   - Any important findings or decisions\n   - Any warnings or caveats\n3. You MUST create the `"

/-- Chunk of the query-mode template between the second interpolation of
`RESPONSE_FILENAME` and the interpolation of the user prompt. -/
def wrapQueryC : String :=
  "` file. It is how you report back.\n\n## YOUR TASK\n\n"

/-- Chunk of the default-mode template of `wrapPrompt` before the first
interpolation of `RESPONSE_FILENAME`. -/
def wrapDefaultA : String :=
  "## CRITICAL INSTRUCTIONS — READ BEFORE DOING ANYTHING\n\nYou are operating as a subagent inside an isolated git worktree. Follow these rules:\n\n1. **NEVER push to any remote.** Do not run `git push` under any circumstances.\n2. **When you are finished**, write your complete final response to the file `"

/-- Chunk of the default-mode template between the two interpolations of
`RESPONSE_FILENAME`. -/
def wrapDefaultB : String :=
  "` in the repository root. This file is your ONLY communication channel back to the calling agent. Include:\n   - A summary of what you did\n   - Any important findings or decisions\n   - Any warnings or caveats\n3. You MUST create the `"

/-- Chunk of the default-mode template between the second interpolation of
`RESPONSE_FILENAME` and the interpolation of the user prompt. -/
def wrapDefaultC : String :=
  "` file even if you made no code changes. It is how you report back.\n\n## YOUR TASK\n\n"

/-- Embedding of `wrapPrompt` from `src/util.ts`: each template literal is
the concatenation of its literal chunks with the interpolated
`RESPONSE_FILENAME` and user prompt. -/
def wrapPrompt (userPrompt : String) (mode : ToolMode) : String :=
  match mode with
  | ToolMode.query =>
      wrapQueryA ++ RESPONSE_FILENAME ++ wrapQueryB ++ RESPONSE_FILENAME ++
        wrapQueryC ++ userPrompt
  | ToolMode.default =>
      wrapDefaultA ++ RESPONSE_FILENAME ++ wrapDefaultB ++ RESPONSE_FILENAME ++
        wrapDefaultC ++ userPrompt

/-- Embedding of `generateWorktreePath` from `src/util.ts`. A call is
determined by the repository root passed in, the millisecond clock
reading `Date.now()` and the random suffix
`Math.random().toString(36).substring(2, 8)`; the code derives nothing
else, so two calls are embedded as two (timestamp, suffix) pairs. -/
def generateWorktreePath (baseDir : String) (timestamp : Nat) (suffix : String) : String :=
  baseDir ++ "/.worktrees/" ++ ("paf-" ++ numberToString timestamp ++ "-" ++ suffix)

/-- Embedding of the branch-name derivation
`paf/${worktreePath.split("/").pop()}` used by `createWorktree` and
`removeWorktree` in `src/git.ts`: `split("/").pop()` is the substring
after the last path separator, embedded here at character level as the
longest separator-free suffix. -/
def branchNameOf (worktreePath : String) : String :=
  "paf/" ++ String.mk ((worktreePath.data.reverse.takeWhile (fun c => c != '/')).reverse)

/-- Embedding of `PROMPT_SIZE_WARNING_THRESHOLD` from `src/util.ts`. -/
def PROMPT_SIZE_WARNING_THRESHOLD : Nat := 10 * 1024

/-- Embedding of `REPO_ISSUES_URL` from `src/util.ts`. -/
def REPO_ISSUES_URL : String := "https://github.com/bexelbie/phone-a-friend/issues"

/-- JavaScript `Math.round(len / 1024)` for a natural `len`: division by
1024 is exact in binary floating point and `Math.round` rounds half up,
so the result is `(len + 512) / 1024` in integer arithmetic. -/
def jsRoundKB (len : Nat) : Nat := (len + 512) / 1024

/-- Embedding of `promptSizeWarning` from `src/util.ts`. -/
def promptSizeWarning (prompt : String) : Option String :=
  if prompt.length < PROMPT_SIZE_WARNING_THRESHOLD then none
  else some
    ("**Large prompt warning:** The prompt sent to the subagent was ~" ++
      numberToString (jsRoundKB prompt.length) ++
      "KB. If this included pasted file contents to work around the uncommitted changes limitation, be aware this consumes significant context in both directions. If this is causing problems, consider requesting built-in uncommitted changes support: " ++
      REPO_ISSUES_URL)

/-- Substring relation on strings, stated over the underlying character
lists: `needle` occurs contiguously inside `hay`. -/
def containsStr (hay needle : String) : Prop :=
  ∃ a b : List Char, hay.data = a ++ needle.data ++ b

/-- A file tree: an association list from file names to contents, first
occurrence authoritative. -/
abbrev Files := List (String × String)

/-- Lookup of a file by name (first match wins). -/
def lookupFile : Files → String → Option String
  | [], _ => none
  | (m, c) :: rest, n => if m = n then some c else lookupFile rest n

/-- Removal of every entry with the given name, as `fs.filter` and
`unlink` produce on a file map. -/
def removeFile : Files → String → Files
  | [], _ => []
  | (m, c) :: rest, n =>
      if m = n then removeFile rest n else (m, c) :: removeFile rest n

/-- Writing a file: the new content replaces any previous entry. -/
def setFile (fs : Files) (n c : String) : Files := (n, c) :: removeFile fs n

/-- A repository: its commit store (sha to snapshot, newest first) and
the commit its `HEAD` points at. -/
structure Repo where
  commits : List (Nat × Files)
  head : Nat

/-- Lookup of a commit snapshot by sha. -/
def lookupCommit : List (Nat × Files) → Nat → Option Files
  | [], _ => none
  | (s, fs) :: rest, sha => if s = sha then some fs else lookupCommit rest sha

/-- State of an isolated worktree: the shared commit store, the commit
its `HEAD` points at, its working files and its index (staging area). -/
structure Worktree where
  commits : List (Nat × Files)
  head : Nat
  work : Files
  index : Files
deriving DecidableEq

/-- Worktree produced by `createWorktree` (`git worktree add -B branch
path HEAD` in `src/git.ts`): a checkout of the current head commit. -/
def mkWorktree (repo : Repo) : Worktree :=
  let snap := (lookupCommit repo.commits repo.head).getD []
  { commits := repo.commits, head := repo.head, work := snap, index := snap }

/-- Embedding of `getHeadSha` from `src/git.ts` (`git rev-parse HEAD`). -/
def getHeadSha (wt : Worktree) : Nat := wt.head

/-- One step the external agent may take inside the worktree: write a
file, or commit the current working files as a new commit (advancing the
worktree head, as `git add -A && git commit` does). -/
inductive AgentAct where
  | write (name content : String)
  | commit (sha : Nat)
deriving DecidableEq

/-- Effect of one agent action on the worktree. -/
def applyAct (wt : Worktree) (a : AgentAct) : Worktree :=
  match a with
  | AgentAct.write n c => { wt with work := setFile wt.work n c }
  | AgentAct.commit s =>
      { wt with commits := (s, wt.work) :: wt.commits, head := s, index := wt.work }

/-- The full run of the external agent, as the sequence of filesystem and
git effects it had on the worktree. -/
def runAgentActs (acts : List AgentAct) (wt : Worktree) : Worktree :=
  acts.foldl applyAct wt

/-- Embedding of `readAndRemoveResponse` from `src/git.ts`: read the
response artifact if present, delete it, and return `null` (here `none`)
when the read fails because the file does not exist. -/
def readAndRemoveResponse (wt : Worktree) (responseFilename : String) :
    Option String × Worktree :=
  match lookupFile wt.work responseFilename with
  | some content => (some content, { wt with work := removeFile wt.work responseFilename })
  | none => (none, wt)

/-- Entries of `cur` that `git diff` reports against `base`: new files
and files whose content changed. -/
def diffEntries (base : Files) : Files → Files
  | [] => []
  | (n, c) :: rest =>
      if lookupFile base n = some c then diffEntries base rest
      else (n, c) :: diffEntries base rest

/-- Entries of `base` that are gone from `cur`: deletions reported by
`git diff`. -/
def deletedEntries (cur : Files) : Files → Files
  | [] => []
  | (n, c) :: rest =>
      if lookupFile cur n = none then (n, c) :: deletedEntries cur rest
      else deletedEntries cur rest

/-- Unified-diff text for added or modified entries. -/
def renderAdds : Files → String
  | [] => ""
  | (n, c) :: rest =>
      "diff --git a/" ++ n ++ " b/" ++ n ++ "\n+++ b/" ++ n ++ "\n+" ++ c ++ "\n" ++
        renderAdds rest

/-- Unified-diff text for deleted entries. -/
def renderDels : Files → String
  | [] => ""
  | (n, c) :: rest =>
      "diff --git a/" ++ n ++ " b/" ++ n ++ "\n--- a/" ++ n ++ "\n-" ++ c ++ "\n" ++
        renderDels rest

/-- Unified diff `git diff --staged baseSha` between a base snapshot and
the staged files. -/
def renderDiff (base cur : Files) : String :=
  renderAdds (diffEntries base cur) ++ renderDels (deletedEntries cur base)

/-- Embedding of `captureChanges` from `src/git.ts`. `addOk` is whether
`git add -A` succeeds (its failure is caught and staging is skipped);
`diffOk` is whether `git diff --staged baseSha` succeeds — on its
failure the catch block returns the empty string. -/
def captureChanges (addOk diffOk : Bool) (wt : Worktree) (baseSha : Nat) :
    String × Worktree :=
  let staged := if addOk then { wt with index := wt.work } else wt
  if diffOk then
    (renderDiff ((lookupCommit staged.commits baseSha).getD []) staged.index, staged)
  else
    ("", staged)

/-- Outcomes of the fallible sub-steps inside `removeWorktree`:
whether `git worktree remove --force` succeeds, whether the worktree
directory still exists when the fallback runs, whether `rm` (recursive
filesystem deletion) succeeds, whether `git worktree prune` succeeds,
and whether `git branch -D` succeeds. -/
structure RmEnv where
  worktreeRemoveOk : Bool
  pathExists : Bool
  rmOk : Bool
  pruneOk : Bool
  branchDeleteOk : Bool
deriving DecidableEq

/-- Sub-steps `removeWorktree` can attempt, in order. -/
inductive RmStep where
  | worktreeRemove
  | fsDelete
  | prune
  | branchDelete
deriving DecidableEq, Repr

/-- Embedding of `removeWorktree` from `src/git.ts`. The primary
`git worktree remove` failure is caught; inside that catch the direct
filesystem deletion `rm` is NOT wrapped in its own try, so its failure
propagates out of the function; `git worktree prune` and `git branch -D`
failures are caught and swallowed. Returns the raised error, if any,
with the list of sub-steps attempted. -/
def removeWorktree (r : RmEnv) : Except String Unit × List RmStep :=
  if r.worktreeRemoveOk then
    (Except.ok (), [RmStep.worktreeRemove, RmStep.branchDelete])
  else if r.pathExists then
    if r.rmOk then
      (Except.ok (), [RmStep.worktreeRemove, RmStep.fsDelete, RmStep.prune, RmStep.branchDelete])
    else
      (Except.error "recursive filesystem deletion failed", [RmStep.worktreeRemove, RmStep.fsDelete])
  else
    (Except.ok (), [RmStep.worktreeRemove, RmStep.prune, RmStep.branchDelete])

/-- Whitespace test used by JavaScript `String.prototype.trim` on the
characters this system produces. -/
def isWS (c : Char) : Bool := c = ' ' || c = '\t' || c = '\n' || c = '\r'

/-- Character-list trim from both ends. -/
def trimChars (l : List Char) : List Char :=
  ((l.dropWhile isWS).reverse.dropWhile isWS).reverse

/-- Embedding of JavaScript `String.prototype.trim`. -/
def jsTrim (s : String) : String := String.mk (trimChars s.data)

/-- JavaScript truthiness of a `string | null` value: truthy iff
non-null and non-empty. -/
def jsTruthy : Option String → Bool
  | some r => r ≠ ""
  | none => false

/-- The fixed notice pushed by the handler when the response artifact is
missing (or read as falsy). -/
def noResponseNotice : String :=
  "## Agent Response\n\n*No response file was created. The agent may have failed to follow the message-in-a-bottle instructions.*"

/-- The Agent Response part the handler pushes: the response content
when the value read back is truthy, the fixed notice otherwise. -/
def respPartOf (response : Option String) : String :=
  if jsTruthy response then "## Agent Response\n\n" ++ response.getD ""
  else noResponseNotice

/-- The Warnings parts the handler pushes on non-zero agent exit. -/
def warnPartsOf (exitCode : Nat) (stderr : String) : List String :=
  if exitCode ≠ 0 then
    ["## Warnings\n\nCopilot CLI exited with code " ++ numberToString exitCode ++ "." ++
      (if stderr ≠ "" then "\n\nStderr:\n" ++ stderr else "")]
  else []

/-- The Context Size Notice parts the handler pushes for large prompts. -/
def sizePartsOf (prompt : String) : List String :=
  match promptSizeWarning prompt with
  | some w => ["## Context Size Notice\n\n" ++ w]
  | none => []

/-- Side-effecting operations the handler performs, in program order,
with the arguments that matter for the spec: the sha `getHeadSha`
returned, the value `readAndRemoveResponse` returned, and the sha and
working files `captureChanges` was invoked with. -/
inductive Event where
  | genPath
  | createWorktree
  | getHeadSha (sha : Nat)
  | runAgent
  | readResponse (response : Option String)
  | captureChanges (baseSha : Nat) (work : Files)
  | removeWorktree
deriving DecidableEq, Repr

/-- Environment of one invocation: every externally determined outcome
the handler code observes, fixed up front. `resolvedDir` is the result
of `resolve(working_directory)`; `isRepo` is what `git rev-parse
--git-dir` reports there; `now` and `rand` are the clock reading and
random suffix consumed by `generateWorktreePath`; `createOk` and
`headShaOk` are whether `git worktree add` and `git rev-parse HEAD`
succeed; `agentActs`, `agentExitCode` and `agentStderr` describe the
external agent run; `addOk` and `diffOk` are the fallible steps inside
`captureChanges`; `rm` fixes the sub-step outcomes of the final
`removeWorktree`. -/
structure Env where
  isRepo : Bool
  resolvedDir : String
  gitRoot : String
  now : Nat
  rand : String
  createOk : Bool
  headShaOk : Bool
  agentActs : List AgentAct
  agentExitCode : Nat
  agentStderr : String
  addOk : Bool
  diffOk : Bool
  rm : RmEnv

/-- Result of the handler: a normal MCP result (its content parts and
error flag), or an exception propagating out of the try/finally. -/
inductive Outcome where
  | result (parts : List String) (isError : Bool)
  | thrown (msg : String)
deriving DecidableEq

/-- Content parts of a normal result; empty for a thrown outcome. -/
def resultParts : Outcome → List String
  | Outcome.result parts _ => parts
  | Outcome.thrown _ => []

/-- Embedding of the `phone_a_friend` handler from `src/index.ts`,
returning the outcome and the trace of side-effecting operations in
program order. The `finally` block always attempts `removeWorktree`
once the path generation has happened, and its own failure is caught
and logged, never raised — hence its result is discarded here. -/
def handler (env : Env) (repo : Repo) (prompt : String) (mode : ToolMode) :
    Outcome × List Event :=
  if env.isRepo = false then
    (Outcome.result ["Error: " ++ env.resolvedDir ++ " is not inside a git repository."] true,
     [])
  else
    let _worktreePath := generateWorktreePath env.gitRoot env.now env.rand
    if env.createOk = false then
      let _cleanup := removeWorktree env.rm
      (Outcome.thrown "git worktree add failed", [Event.genPath, Event.removeWorktree])
    else
      let wt0 := mkWorktree repo
      if env.headShaOk = false then
        let _cleanup := removeWorktree env.rm
        (Outcome.thrown "git rev-parse HEAD failed",
         [Event.genPath, Event.createWorktree, Event.removeWorktree])
      else
        let baseSha := getHeadSha wt0
        let wt1 := runAgentActs env.agentActs wt0
        let rr := readAndRemoveResponse wt1 RESPONSE_FILENAME
        let response := rr.1
        let wt2 := rr.2
        let respPart := respPartOf response
        let diffStep : List String × List Event :=
          match mode with
          | ToolMode.default =>
              let diff := (captureChanges env.addOk env.diffOk wt2 baseSha).1
              (if jsTrim diff ≠ "" then
                 ["## File Changes (unified diff)\n\n```diff\n" ++ diff ++ "\n```"]
               else
                 ["## File Changes\n\nNo file changes were made."],
               [Event.captureChanges baseSha wt2.work])
          | ToolMode.query => ([], [])
        let warnParts := warnPartsOf env.agentExitCode env.agentStderr
        let sizeParts := sizePartsOf prompt
        let parts := [respPart] ++ diffStep.1 ++ warnParts ++ sizeParts
        let _cleanup := removeWorktree env.rm
        (Outcome.result parts false,
         [Event.genPath, Event.createWorktree, Event.getHeadSha baseSha, Event.runAgent,
          Event.readResponse response] ++ diffStep.2 ++ [Event.removeWorktree])

/-- Two strings with the same character data are equal. -/
theorem string_eq_of_data {a b : String} (h : a.data = b.data) : a = b := by
  cases a
  cases b
  exact congrArg String.mk h

/-- The digit-to-character map is injective below 10. -/
theorem digitChar_inj : ∀ a < 10, ∀ b < 10,
    Char.ofNat (48 + a) = Char.ofNat (48 + b) → a = b := by decide

/-- Mapping the digit-to-character function over lists of digits is
injective. -/
theorem map_digitChar_inj :
    ∀ l1 l2 : List Nat, (∀ x ∈ l1, x < 10) → (∀ x ∈ l2, x < 10) →
      l1.map (fun d => Char.ofNat (48 + d)) = l2.map (fun d => Char.ofNat (48 + d)) →
      l1 = l2 := by
  intro l1
  induction l1 with
  | nil =>
      intro l2 _ _ h
      cases l2 with
      | nil => rfl
      | cons b r => simp at h
  | cons a t ih =>
      intro l2 h1 h2 h
      cases l2 with
      | nil => simp at h
      | cons b r =>
          simp only [List.map_cons, List.cons.injEq] at h
          have hab : a = b :=
            digitChar_inj a (h1 a (List.mem_cons_self a t)) b (h2 b (List.mem_cons_self b r)) h.1
          have htr : t = r :=
            ih r (fun x hx => h1 x (List.mem_cons_of_mem a hx))
              (fun x hx => h2 x (List.mem_cons_of_mem b hx)) h.2
          rw [hab, htr]

/-- Digits of a decimal expansion are below 10. -/
theorem digits_lt_ten {n : Nat} : ∀ x ∈ (Nat.digits 10 n).reverse, x < 10 := by
  intro x hx
  exact Nat.digits_lt_base (by norm_num) (List.mem_reverse.mp hx)

/-- Decimal rendering of numbers is injective: distinct numbers never
produce the same interpolated text. -/
theorem numberToString_inj : ∀ m n : Nat, numberToString m = numberToString n → m = n := by
  intro m n h
  unfold numberToString at h
  by_cases hm : m = 0 <;> by_cases hn : n = 0
  · rw [hm, hn]
  · exfalso
    rw [if_pos hm, if_neg hn] at h
    have hd : (String.mk ['0']).data =
        (String.mk ((Nat.digits 10 n).reverse.map (fun d => Char.ofNat (48 + d)))).data := by
      rw [show String.mk ['0'] = "0" from rfl, h]
    simp only [String.data] at hd
    have h0 : ([0] : List Nat).map (fun d => Char.ofNat (48 + d)) = ['0'] := by decide
    have : ([0] : List Nat) = (Nat.digits 10 n).reverse :=
      map_digitChar_inj [0] ((Nat.digits 10 n).reverse) (by decide) digits_lt_ten
        (by rw [h0]; exact hd)
    have hdig : Nat.digits 10 n = [0] := by
      have := congrArg List.reverse this
      simpa using this.symm
    have : n = 0 := by
      have := Nat.ofDigits_digits 10 n
      rw [hdig] at this
      simpa [Nat.ofDigits] using this.symm
    exact hn this
  · exfalso
    rw [if_neg hm, if_pos hn] at h
    have hd : (String.mk ((Nat.digits 10 m).reverse.map (fun d => Char.ofNat (48 + d)))).data =
        (String.mk ['0']).data := by
      rw [show String.mk ['0'] = "0" from rfl, h]
    simp only [String.data] at hd
    have h0 : ([0] : List Nat).map (fun d => Char.ofNat (48 + d)) = ['0'] := by decide
    have : (Nat.digits 10 m).reverse = ([0] : List Nat) :=
      map_digitChar_inj ((Nat.digits 10 m).reverse) [0] digits_lt_ten (by decide)
        (by rw [h0]; exact hd)
    have hdig : Nat.digits 10 m = [0] := by
      have := congrArg List.reverse this
      simpa using this
    have : m = 0 := by
      have := Nat.ofDigits_digits 10 m
      rw [hdig] at this
      simpa [Nat.ofDigits] using this.symm
    exact hm this
  · rw [if_neg hm, if_neg hn] at h
    have hd := congrArg String.data h
    simp only [String.data] at hd
    have : (Nat.digits 10 m).reverse = (Nat.digits 10 n).reverse :=
      map_digitChar_inj _ _ digits_lt_ten digits_lt_ten hd
    have hdig : Nat.digits 10 m = Nat.digits 10 n := by
      have := congrArg List.reverse this
      simpa using this
    have := congrArg (Nat.ofDigits 10) hdig
    rwa [Nat.ofDigits_digits, Nat.ofDigits_digits] at this

/-- Removing a file makes its name unresolvable. -/
theorem lookupFile_removeFile_self (fs : Files) (n : String) :
    lookupFile (removeFile fs n) n = none := by
  induction fs with
  | nil => rfl
  | cons p rest ih =>
      obtain ⟨m, c⟩ := p
      by_cases h : m = n
      · simp [removeFile, h, ih]
      · simp [removeFile, lookupFile, h, ih]

/-- Removing one file leaves lookups of other names unchanged. -/
theorem lookupFile_removeFile_ne (fs : Files) {n m : String} (h : m ≠ n) :
    lookupFile (removeFile fs n) m = lookupFile fs m := by
  induction fs with
  | nil => rfl
  | cons p rest ih =>
      obtain ⟨k, c⟩ := p
      by_cases hk : k = n
      · subst hk
        have hne : ¬ k = m := fun he => h he.symm
        have h1 : removeFile ((k, c) :: rest) k = removeFile rest k := by
          simp [removeFile]
        have h2 : lookupFile ((k, c) :: rest) m = lookupFile rest m := by
          simp [lookupFile, hne]
        rw [h1, ih, h2]
      · simp only [removeFile, hk, if_false, lookupFile]
        by_cases hm : k = m
        · simp [hm]
        · simp [hm, ih]

/-- Writing one file leaves lookups of other names unchanged. -/
theorem lookupFile_setFile_ne (fs : Files) {n m : String} (c : String) (h : m ≠ n) :
    lookupFile (setFile fs n c) m = lookupFile fs m := by
  have : n ≠ m := fun he => h he.symm
  simp [setFile, lookupFile, this, lookupFile_removeFile_ne fs h]

/-- A member of the file list resolves to some content. -/
theorem lookupFile_isSome_of_mem {fs : Files} {p : String × String} (h : p ∈ fs) :
    ∃ c, lookupFile fs p.1 = some c := by
  induction fs with
  | nil => cases h
  | cons q rest ih =>
      obtain ⟨k, c⟩ := q
      by_cases hk : k = p.1
      · exact ⟨c, by simp [lookupFile, hk]⟩
      · rcases List.mem_cons.mp h with he | hm
        · exact absurd (congrArg Prod.fst he.symm) hk
        · obtain ⟨c2, hc2⟩ := ih hm
          exact ⟨c2, by simp [lookupFile, hk, hc2]⟩

/-- Entries surviving a removal were in the original list. -/
theorem mem_of_mem_removeFile {fs : Files} {n : String} {p : String × String}
    (h : p ∈ removeFile fs n) : p ∈ fs := by
  induction fs with
  | nil => cases h
  | cons q rest ih =>
      obtain ⟨k, c⟩ := q
      by_cases hk : k = n
      · simp only [removeFile, hk, if_true] at h
        exact List.mem_cons_of_mem _ (ih h)
      · simp only [removeFile, hk, if_false] at h
        rcases List.mem_cons.mp h with he | hm
        · exact he ▸ List.mem_cons_self _ _
        · exact List.mem_cons_of_mem _ (ih hm)

/-- When every entry already matches the base snapshot, the diff has no
added or modified entries. -/
theorem diffEntries_eq_nil {base : Files} :
    ∀ {l : Files}, (∀ p ∈ l, lookupFile base p.1 = some p.2) → diffEntries base l = [] := by
  intro l
  induction l with
  | nil => intro _; rfl
  | cons p rest ih =>
      intro h
      obtain ⟨n, c⟩ := p
      have hp := h (n, c) (List.mem_cons_self _ _)
      simp only [diffEntries, hp, if_true]
      exact ih (fun q hq => h q (List.mem_cons_of_mem _ hq))

/-- When every base entry still resolves in the current files, the diff
has no deleted entries. -/
theorem deletedEntries_eq_nil {cur : Files} :
    ∀ {l : Files}, (∀ p ∈ l, lookupFile cur p.1 ≠ none) → deletedEntries cur l = [] := by
  intro l
  induction l with
  | nil => intro _; rfl
  | cons p rest ih =>
      intro h
      obtain ⟨n, c⟩ := p
      have hp := h (n, c) (List.mem_cons_self _ _)
      simp only [deletedEntries]
      rw [if_neg hp]
      exact ih (fun q hq => h q (List.mem_cons_of_mem _ hq))

/-- An element that fails the predicate survives `dropWhile`. -/
theorem mem_dropWhile_of_mem {a : Char} {l : List Char} {p : Char → Bool}
    (h1 : a ∈ l) (h2 : p a = false) : a ∈ l.dropWhile p := by
  induction l with
  | nil => cases h1
  | cons b t ih =>
      by_cases hb : p b = true
      · rw [List.dropWhile_cons_of_pos hb]
        rcases List.mem_cons.mp h1 with rfl | h
        · rw [h2] at hb; cases hb
        · exact ih h
      · rw [List.dropWhile_cons_of_neg hb]
        exact h1

/-- A non-whitespace character survives trimming. -/
theorem mem_trimChars {a : Char} {l : List Char} (h1 : a ∈ l) (h2 : isWS a = false) :
    a ∈ trimChars l := by
  unfold trimChars
  apply List.mem_reverse.mpr
  apply mem_dropWhile_of_mem _ h2
  apply List.mem_reverse.mpr
  exact mem_dropWhile_of_mem h1 h2

/-- A string containing a non-whitespace character does not trim to the
empty string. -/
theorem jsTrim_ne_empty {s : String} {a : Char} (h1 : a ∈ s.data) (h2 : isWS a = false) :
    jsTrim s ≠ "" := by
  intro he
  have hnil : trimChars s.data = [] := by
    have hd := congrArg String.data he
    simpa [jsTrim] using hd
  have hmem := mem_trimChars h1 h2
  rw [hnil] at hmem
  cases hmem

/-- Prefix relation on strings. -/
def strStarts (pre s : String) : Prop := ∃ t : String, s = pre ++ t

/-- A string whose first characters disagree with `pre` does not start
with `pre`: witnessed by any `n` at most the length of `pre` where the
takes differ. -/
theorem not_strStarts_of_take_ne {pre s : String} (n : Nat)
    (hn : n ≤ pre.data.length) (h : s.data.take n ≠ pre.data.take n) :
    ¬ strStarts pre s := by
  rintro ⟨t, rfl⟩
  apply h
  rw [String.data_append]
  exact List.take_append_of_le_length hn

/-- A small concrete repository used to instantiate hypotheses. -/
def repoBase : Repo := { commits := [(1, [("README.md", "hello")])], head := 1 }

/-- Sub-step outcomes of a fully successful `removeWorktree`. -/
def rmAllOk : RmEnv :=
  { worktreeRemoveOk := true, pathExists := false, rmOk := true,
    pruneOk := true, branchDeleteOk := true }

/-- A fully successful concrete environment. -/
def envBase : Env :=
  { isRepo := true, resolvedDir := "/repo", gitRoot := "/repo",
    now := 1700000000000, rand := "k3j9qz",
    createOk := true, headShaOk := true,
    agentActs := [], agentExitCode := 0, agentStderr := "",
    addOk := true, diffOk := true, rm := rmAllOk }

/-- C8: for every user prompt and every mode, `wrapPrompt` returns text
containing the user prompt verbatim as a substring and containing the
literal response-artifact filename `.paf-response.md`. -/
theorem c8_wrapPrompt_contains (p : String) (mode : ToolMode) :
    containsStr (wrapPrompt p mode) p ∧
    containsStr (wrapPrompt p mode) RESPONSE_FILENAME := by
  cases mode with
  | default =>
      constructor
      · exact ⟨(wrapDefaultA ++ RESPONSE_FILENAME ++ wrapDefaultB ++ RESPONSE_FILENAME ++
          wrapDefaultC).data, [],
          by simp [wrapPrompt, String.data_append, List.append_assoc]⟩
      · exact ⟨wrapDefaultA.data,
          (wrapDefaultB ++ RESPONSE_FILENAME ++ wrapDefaultC ++ p).data,
          by simp [wrapPrompt, String.data_append, List.append_assoc]⟩
  | query =>
      constructor
      · exact ⟨(wrapQueryA ++ RESPONSE_FILENAME ++ wrapQueryB ++ RESPONSE_FILENAME ++
          wrapQueryC).data, [],
          by simp [wrapPrompt, String.data_append, List.append_assoc]⟩
      · exact ⟨wrapQueryA.data,
          (wrapQueryB ++ RESPONSE_FILENAME ++ wrapQueryC ++ p).data,
          by simp [wrapPrompt, String.data_append, List.append_assoc]⟩

/-- C4 counterexample: two same-millisecond calls to
`generateWorktreePath` whose `Math.random` draws coincide — which
nothing in the code precludes, `Math.random` giving no distinctness
guarantee — produce the identical workspace path and hence the
identical derived branch name, so collisions are possible. -/
theorem c4_counterexample :
    generateWorktreePath "/repo" 1700000000000 "k3j9qz" =
      generateWorktreePath "/repo" 1700000000000 "k3j9qz" ∧
    branchNameOf (generateWorktreePath "/repo" 1700000000000 "k3j9qz") =
      branchNameOf (generateWorktreePath "/repo" 1700000000000 "k3j9qz") :=
  ⟨rfl, rfl⟩

/-- Every character of the decimal rendering is a digit character. -/
theorem numberToString_digit_chars (t : Nat) :
    ∀ ch ∈ (numberToString t).data, ∃ d, d < 10 ∧ ch = Char.ofNat (48 + d) := by
  intro ch hch
  unfold numberToString at hch
  by_cases ht : t = 0
  · rw [if_pos ht] at hch
    have h0 : ("0" : String).data = ['0'] := rfl
    rw [h0, List.mem_singleton] at hch
    exact ⟨0, by norm_num, by rw [hch]⟩
  · rw [if_neg ht] at hch
    obtain ⟨d, hd, hfd⟩ := List.mem_map.mp hch
    exact ⟨d, Nat.digits_lt_base (by norm_num) (List.mem_reverse.mp hd), hfd.symm⟩

/-- The decimal rendering of the timestamp never contains a dash. -/
theorem numberToString_no_dash (t : Nat) : '-' ∉ (numberToString t).data := by
  intro h
  obtain ⟨d, hd, he⟩ := numberToString_digit_chars t '-' h
  have hall : ∀ d < 10, Char.ofNat (48 + d) ≠ '-' := by decide
  exact hall d hd he.symm

/-- The decimal rendering of the timestamp never contains a path
separator. -/
theorem numberToString_no_slash (t : Nat) : '/' ∉ (numberToString t).data := by
  intro h
  obtain ⟨d, hd, he⟩ := numberToString_digit_chars t '/' h
  have hall : ∀ d < 10, Char.ofNat (48 + d) ≠ '/' := by decide
  exact hall d hd he.symm

/-- A character list of the shape `left ++ dash ++ right` with a
dash-free `left` decomposes uniquely at its first dash. -/
theorem append_dash_inj : ∀ (l1 l2 r1 r2 : List Char),
    l1 ++ '-' :: r1 = l2 ++ '-' :: r2 → '-' ∉ l1 → '-' ∉ l2 → l1 = l2 ∧ r1 = r2 := by
  intro l1
  induction l1 with
  | nil =>
      intro l2 r1 r2 h h1 h2
      cases l2 with
      | nil =>
          refine ⟨rfl, ?_⟩
          have h' : ('-' :: r1 : List Char) = '-' :: r2 := h
          injection h' with he ht
      | cons b l2' =>
          exfalso
          simp only [List.nil_append, List.cons_append, List.cons.injEq] at h
          apply h2
          rw [← h.1]
          exact List.mem_cons_self _ _
  | cons a l1' ih =>
      intro l2 r1 r2 h h1 h2
      cases l2 with
      | nil =>
          exfalso
          simp only [List.cons_append, List.nil_append, List.cons.injEq] at h
          apply h1
          rw [h.1]
          exact List.mem_cons_self _ _
      | cons b l2' =>
          simp only [List.cons_append, List.cons.injEq] at h
          have h1' : '-' ∉ l1' := fun hm => h1 (List.mem_cons_of_mem a hm)
          have h2' : '-' ∉ l2' := fun hm => h2 (List.mem_cons_of_mem b hm)
          obtain ⟨hl, hr⟩ := ih l2' r1 r2 h.2 h1' h2'
          exact ⟨by rw [h.1, hl], hr⟩

/-- Data of the dash literal. -/
theorem dash_data : ("-" : String).data = ['-'] := rfl

/-- A `takeWhile` passes over a leading block whose characters all
satisfy the predicate. -/
theorem takeWhile_append_all {p : Char → Bool} {l1 l2 : List Char}
    (h : ∀ c ∈ l1, p c = true) :
    (l1 ++ l2).takeWhile p = l1 ++ l2.takeWhile p := by
  induction l1 with
  | nil => simp
  | cons a t ih =>
      rw [List.cons_append, List.takeWhile_cons_of_pos (h a (List.mem_cons_self a t)),
        List.cons_append, ih (fun c hc => h c (List.mem_cons_of_mem a hc))]

/-- On a generated workspace path the reserved directory prefix ends in
a separator and the worktree name is separator-free when the random
suffix is, so the branch derivation appends exactly the worktree
name. -/
theorem branchNameOf_generate (baseDir : String) (t : Nat) (s : String)
    (hs : '/' ∉ s.data) :
    branchNameOf (generateWorktreePath baseDir t s) =
      "paf/" ++ ("paf-" ++ numberToString t ++ "-" ++ s) := by
  unfold branchNameOf
  congr 1
  apply string_eq_of_data
  show ((generateWorktreePath baseDir t s).data.reverse.takeWhile
      (fun c => c != '/')).reverse =
    ("paf-" ++ numberToString t ++ "-" ++ s : String).data
  have hsplit : (generateWorktreePath baseDir t s).data =
      (baseDir.data ++ ("/.worktrees/" : String).data) ++
        ("paf-" ++ numberToString t ++ "-" ++ s : String).data := by
    unfold generateWorktreePath
    rw [String.data_append, String.data_append]
  have hN : ∀ c ∈ ("paf-" ++ numberToString t ++ "-" ++ s : String).data.reverse,
      (c != '/') = true := by
    intro c hc
    have hcN := List.mem_reverse.mp hc
    simp only [String.data_append, List.mem_append] at hcN
    have hcne : c ≠ '/' := by
      rintro rfl
      rcases hcN with ((h | h) | h) | h
      · revert h
        decide
      · exact numberToString_no_slash t h
      · revert h
        decide
      · exact hs h
    simpa using hcne
  have hW : ((baseDir.data ++ ("/.worktrees/" : String).data).reverse.takeWhile
      (fun c => c != '/')) = [] := by
    rw [List.reverse_append]
    have hwrev : ("/.worktrees/" : String).data.reverse =
        '/' :: ['s', 'e', 'e', 'r', 't', 'k', 'r', 'o', 'w', '.', '/'] := by decide
    rw [hwrev, List.cons_append, List.takeWhile_cons_of_neg (by decide)]
  rw [hsplit, List.reverse_append, takeWhile_append_all hN, hW, List.append_nil,
    List.reverse_reverse]

/-- C4 amended: two calls against the same repository root yield
distinct workspace paths whenever their millisecond timestamps differ
or their random suffixes differ — the timestamp renders as decimal
digits, never a dash, so the generated name decomposes uniquely at its
first dash — and, the random-suffix alphabet
(`Math.random().toString(36)` output) containing no path separator, the
derived branch names are then distinct as well. Only a simultaneous
coincidence of the clock reading and the random draw collides. -/
theorem c4_amended (baseDir : String) (t1 t2 : Nat) (s1 s2 : String)
    (hne : t1 ≠ t2 ∨ s1 ≠ s2) :
    generateWorktreePath baseDir t1 s1 ≠ generateWorktreePath baseDir t2 s2 ∧
    ('/' ∉ s1.data → '/' ∉ s2.data →
      branchNameOf (generateWorktreePath baseDir t1 s1) ≠
        branchNameOf (generateWorktreePath baseDir t2 s2)) := by
  constructor
  · intro he
    have hd := congrArg String.data he
    simp only [generateWorktreePath, String.data_append, List.append_assoc, dash_data,
      List.singleton_append] at hd
    have h1 := List.append_cancel_left hd
    have h2 := List.append_cancel_left h1
    have h3 := List.append_cancel_left h2
    obtain ⟨hT, hS⟩ := append_dash_inj _ _ _ _ h3 (numberToString_no_dash t1)
      (numberToString_no_dash t2)
    rcases hne with h | h
    · exact h (numberToString_inj t1 t2 (string_eq_of_data hT))
    · exact h (string_eq_of_data hS)
  · intro hs1 hs2 he
    rw [branchNameOf_generate baseDir t1 s1 hs1,
      branchNameOf_generate baseDir t2 s2 hs2] at he
    have hd := congrArg String.data he
    simp only [String.data_append, List.append_assoc, dash_data,
      List.singleton_append] at hd
    have h1 := List.append_cancel_left hd
    have h2 := List.append_cancel_left h1
    obtain ⟨hT, hS⟩ := append_dash_inj _ _ _ _ h2 (numberToString_no_dash t1)
      (numberToString_no_dash t2)
    rcases hne with h | h
    · exact h (numberToString_inj t1 t2 (string_eq_of_data hT))
    · exact h (string_eq_of_data hS)

/-- C4 witness: the amended distinctness at a concrete input — same
millisecond, random suffixes of different lengths (a one-character
suffix such as "i" is a real `toString(36).substring(2, 8)` output),
distinct in both workspace path and derived branch name. -/
theorem c4_amended_witness :
    (("k3j9qz" : String) ≠ "i") ∧
    generateWorktreePath "/repo" 1700000000000 "k3j9qz" ≠
      generateWorktreePath "/repo" 1700000000000 "i" ∧
    branchNameOf (generateWorktreePath "/repo" 1700000000000 "k3j9qz") ≠
      branchNameOf (generateWorktreePath "/repo" 1700000000000 "i") := by
  have h := c4_amended "/repo" 1700000000000 1700000000000 "k3j9qz" "i"
    (Or.inr (by decide))
  exact ⟨by decide, h.1, h.2 (by decide) (by decide)⟩

/-- RmEnv of the scenario where `git worktree remove` fails, the
directory still exists, and the fallback `rm` also fails. -/
def rmStuck : RmEnv :=
  { worktreeRemoveOk := false, pathExists := true, rmOk := false,
    pruneOk := true, branchDeleteOk := true }

/-- RmEnv of a call on an already-removed workspace: the primary
removal fails (nothing registered), the directory is gone. -/
def rmGone : RmEnv :=
  { worktreeRemoveOk := false, pathExists := false, rmOk := false,
    pruneOk := true, branchDeleteOk := true }

/-- C6 counterexample: when `git worktree remove` fails, the directory
still exists and the fallback recursive filesystem deletion fails, that
failure propagates — `removeWorktree` raises, contradicting the claim
that it completes without raising regardless of which sub-steps fail. -/
theorem c6_counterexample :
    (removeWorktree rmStuck).1 = Except.error "recursive filesystem deletion failed" :=
  rfl

/-- C6 amended: `removeWorktree` completes without raising whenever the
unprotected fallback filesystem deletion is not the failing sub-step —
in particular on an already-removed workspace, and whatever the
outcomes of `git worktree remove`, `git worktree prune` and
`git branch -D`, whose failures are all caught. -/
theorem c6_amended (r : RmEnv)
    (h : r.worktreeRemoveOk = true ∨ r.pathExists = false ∨ r.rmOk = true) :
    (removeWorktree r).1 = Except.ok () := by
  obtain ⟨w, p, rmk, pr, bd⟩ := r
  cases w
  · cases p
    · rfl
    · cases rmk
      · exfalso
        simp at h
      · rfl
  · rfl

/-- C6 witness: the amended no-raise guarantee on an already-removed
workspace. -/
theorem c6_amended_witness :
    (rmGone.worktreeRemoveOk = true ∨ rmGone.pathExists = false ∨ rmGone.rmOk = true) ∧
    (removeWorktree rmGone).1 = Except.ok () :=
  ⟨Or.inr (Or.inl rfl), c6_amended rmGone (Or.inr (Or.inl rfl))⟩

/-- C3: evaluation of `captureChanges` at the failing input. When the
diff computation fails, the catch block returns the empty string — the
very value a genuine empty diff returns — so the two outcomes are not
distinguishable, contradicting the claim and the repository's own unit
test which asserts a `null` marker on diff failure. -/
theorem c3_diffFailure_conflated :
    (captureChanges true false (mkWorktree repoBase) 1).1 = "" ∧
    (captureChanges true true (mkWorktree repoBase) 1).1 = "" := by
  constructor
  · rfl
  · rfl

/-- C5: when the resolved working directory is not inside a git
repository, the handler returns an error-flagged result whose message
names the resolved path and states it is not inside a git repository,
and no git operation is ever performed — the trace is empty, so
`generateWorktreePath` and `createWorktree` are never reached. -/
theorem c5_not_a_repo (env : Env) (repo : Repo) (prompt : String) (mode : ToolMode)
    (h : env.isRepo = false) :
    handler env repo prompt mode =
      (Outcome.result ["Error: " ++ env.resolvedDir ++ " is not inside a git repository."]
        true, []) := by
  simp [handler, h]

/-- Environment of an invocation pointed at `/tmp`, outside any
repository. -/
def envNoRepo : Env := { envBase with isRepo := false, resolvedDir := "/tmp" }

/-- C5 witness: the not-a-repository error at the concrete `/tmp`
invocation. -/
theorem c5_not_a_repo_witness :
    envNoRepo.isRepo = false ∧
    handler envNoRepo repoBase "List files" ToolMode.default =
      (Outcome.result ["Error: /tmp is not inside a git repository."] true, []) := by
  constructor
  · rfl
  · rw [c5_not_a_repo envNoRepo repoBase "List files" ToolMode.default rfl]
    rfl

/-- C9: `promptSizeWarning` returns `null` exactly when the prompt is
shorter than the fixed 10 KiB threshold; at or above it, it returns a
warning naming the approximate size in KB (the length divided by 1024,
rounded half up, as `Math.round` computes), and the handler includes
any returned warning as a `Context Size Notice` section. -/
theorem c9_size_warning (p : String) :
    (promptSizeWarning p = none ↔ p.length < PROMPT_SIZE_WARNING_THRESHOLD) ∧
    (PROMPT_SIZE_WARNING_THRESHOLD ≤ p.length →
      ∃ w, promptSizeWarning p = some w ∧
        containsStr w ("~" ++ numberToString (jsRoundKB p.length) ++ "KB")) ∧
    (∀ (env : Env) (repo : Repo) (mode : ToolMode) (w : String),
      promptSizeWarning p = some w →
      env.isRepo = true → env.createOk = true → env.headShaOk = true →
      ("## Context Size Notice\n\n" ++ w) ∈ resultParts (handler env repo p mode).1) := by
  refine ⟨?_, ?_, ?_⟩
  · by_cases h : p.length < PROMPT_SIZE_WARNING_THRESHOLD <;> simp [promptSizeWarning, h]
  · intro h
    have hnotlt : ¬ p.length < PROMPT_SIZE_WARNING_THRESHOLD := not_lt.mpr h
    refine ⟨"**Large prompt warning:** The prompt sent to the subagent was ~" ++
      numberToString (jsRoundKB p.length) ++
      "KB. If this included pasted file contents to work around the uncommitted changes limitation, be aware this consumes significant context in both directions. If this is causing problems, consider requesting built-in uncommitted changes support: " ++
      REPO_ISSUES_URL, by simp [promptSizeWarning, hnotlt], ?_⟩
    refine ⟨("**Large prompt warning:** The prompt sent to the subagent was " : String).data,
      ((". If this included pasted file contents to work around the uncommitted changes limitation, be aware this consumes significant context in both directions. If this is causing problems, consider requesting built-in uncommitted changes support: " ++ REPO_ISSUES_URL) : String).data, ?_⟩
    have h1 : ("**Large prompt warning:** The prompt sent to the subagent was ~" : String) =
        "**Large prompt warning:** The prompt sent to the subagent was " ++ "~" := rfl
    have h2 : ("KB. If this included pasted file contents to work around the uncommitted changes limitation, be aware this consumes significant context in both directions. If this is causing problems, consider requesting built-in uncommitted changes support: " : String) =
        "KB" ++ ". If this included pasted file contents to work around the uncommitted changes limitation, be aware this consumes significant context in both directions. If this is causing problems, consider requesting built-in uncommitted changes support: " := rfl
    rw [h1, h2]
    simp only [String.data_append, List.append_assoc]
  · intro env repo mode w hw h1 h2 h3
    cases mode <;>
      simp [handler, h1, h2, h3, hw, sizePartsOf, resultParts, List.mem_append]

/-- A 15000-character prompt, over the 10 KiB threshold. -/
def bigPrompt : String := String.mk (List.replicate 15000 'x')

/-- C9 witness: the size warning behavior at a concrete 15000-character
prompt, whose warning the handler includes as a section. -/
theorem c9_size_warning_witness :
    PROMPT_SIZE_WARNING_THRESHOLD ≤ bigPrompt.length ∧
    (∃ w, promptSizeWarning bigPrompt = some w ∧
      containsStr w ("~" ++ numberToString (jsRoundKB bigPrompt.length) ++ "KB")) ∧
    (∃ w, promptSizeWarning bigPrompt = some w ∧
      ("## Context Size Notice\n\n" ++ w) ∈
        resultParts (handler envBase repoBase bigPrompt ToolMode.default).1) := by
  have hlen : PROMPT_SIZE_WARNING_THRESHOLD ≤ bigPrompt.length := by
    show PROMPT_SIZE_WARNING_THRESHOLD ≤ (List.replicate 15000 'x').length
    rw [List.length_replicate]
    norm_num [PROMPT_SIZE_WARNING_THRESHOLD]
  refine ⟨hlen, (c9_size_warning bigPrompt).2.1 hlen, ?_⟩
  obtain ⟨w, hw, _⟩ := (c9_size_warning bigPrompt).2.1 hlen
  exact ⟨w, hw,
    (c9_size_warning bigPrompt).2.2 envBase repoBase ToolMode.default w hw rfl rfl rfl⟩

/-- C2: once worktree creation has succeeded, teardown is attempted
exactly once — the trace ends in a single `removeWorktree` not preceded
by another — on the normal path, on the agent-failure path (surfaced as
a warning, not an exception) and on the thrown path alike; and the
outcome the handler returns does not depend on whether any teardown
sub-step fails, since that failure is caught and logged. -/
theorem c2_teardown_exactly_once (env : Env) (repo : Repo) (prompt : String) (mode : ToolMode)
    (hrepo : env.isRepo = true) (hcreate : env.createOk = true) :
    (∃ pre, (handler env repo prompt mode).2 = pre ++ [Event.removeWorktree] ∧
      Event.removeWorktree ∉ pre) ∧
    (∀ r1 r2 : RmEnv,
      (handler { env with rm := r1 } repo prompt mode).1 =
        (handler { env with rm := r2 } repo prompt mode).1) := by
  constructor
  · cases hh : env.headShaOk
    · exact ⟨[Event.genPath, Event.createWorktree],
        by simp [handler, hrepo, hcreate, hh], by simp⟩
    · cases mode
      · refine ⟨[Event.genPath, Event.createWorktree,
          Event.getHeadSha (mkWorktree repo).head, Event.runAgent,
          Event.readResponse
            (readAndRemoveResponse (runAgentActs env.agentActs (mkWorktree repo))
              RESPONSE_FILENAME).1,
          Event.captureChanges (mkWorktree repo).head
            (readAndRemoveResponse (runAgentActs env.agentActs (mkWorktree repo))
              RESPONSE_FILENAME).2.work],
          by simp [handler, hrepo, hcreate, hh, getHeadSha], by simp⟩
      · refine ⟨[Event.genPath, Event.createWorktree,
          Event.getHeadSha (mkWorktree repo).head, Event.runAgent,
          Event.readResponse
            (readAndRemoveResponse (runAgentActs env.agentActs (mkWorktree repo))
              RESPONSE_FILENAME).1],
          by simp [handler, hrepo, hcreate, hh, getHeadSha], by simp⟩
  · intro r1 r2
    cases hh : env.headShaOk <;> cases mode <;>
      simp [handler, hrepo, hcreate, hh]

/-- C2 witness: exactly-once teardown on a concrete successful run, and
the outcome unchanged between a teardown whose sub-steps all fail to a
raise and one that succeeds. -/
theorem c2_teardown_witness :
    (∃ pre, (handler envBase repoBase "task" ToolMode.default).2 =
        pre ++ [Event.removeWorktree] ∧ Event.removeWorktree ∉ pre) ∧
    (handler { envBase with rm := rmStuck } repoBase "task" ToolMode.default).1 =
      (handler { envBase with rm := rmAllOk } repoBase "task" ToolMode.default).1 := by
  have h := c2_teardown_exactly_once envBase repoBase "task" ToolMode.default rfl rfl
  exact ⟨h.1, h.2 rmStuck rmAllOk⟩

/-- A string does not start with `pre` when, decomposing its data as
`l ++ r`, some take of `l` already disagrees with `pre`. -/
theorem not_strStarts_data {pre s : String} {l r : List Char} {n : Nat}
    (hs : s.data = l ++ r) (hn : n ≤ pre.data.length) (hl : n ≤ l.length)
    (hne : l.take n ≠ pre.data.take n) : ¬ strStarts pre s :=
  not_strStarts_of_take_ne n hn
    (by rw [hs, List.take_append_of_le_length hl]; exact hne)

/-- The Agent Response part never starts the File Changes section. -/
theorem respPart_not_fileChanges (r : Option String) :
    ¬ strStarts "## File Changes" (respPartOf r) := by
  unfold respPartOf
  by_cases hb : jsTruthy r
  · rw [if_pos hb]
    exact not_strStarts_data (n := 15)
      (String.data_append "## Agent Response\n\n" (r.getD ""))
      (by decide) (by decide) (by decide)
  · rw [if_neg hb]
    exact not_strStarts_of_take_ne 15 (by decide) (by decide)

/-- The Warnings part never starts the File Changes section. -/
theorem warnParts_not_fileChanges (e : Nat) (s : String) :
    ∀ part ∈ warnPartsOf e s, ¬ strStarts "## File Changes" part := by
  intro part hpart
  unfold warnPartsOf at hpart
  by_cases he : e ≠ 0
  · rw [if_pos he] at hpart
    rcases List.mem_singleton.mp hpart with rfl
    refine not_strStarts_data (n := 15)
      (l := ("## Warnings\n\nCopilot CLI exited with code " : String).data)
      (r := (numberToString e).data ++ (("." : String).data ++
        (if s ≠ "" then "\n\nStderr:\n" ++ s else "").data))
      ?_ (by decide) (by decide) (by decide)
    simp only [String.data_append, List.append_assoc]
  · rw [if_neg he] at hpart
    cases hpart

/-- The Context Size Notice part never starts the File Changes
section. -/
theorem sizeParts_not_fileChanges (p : String) :
    ∀ part ∈ sizePartsOf p, ¬ strStarts "## File Changes" part := by
  intro part hpart
  unfold sizePartsOf at hpart
  cases hw : promptSizeWarning p
  · rw [hw] at hpart
    cases hpart
  · rw [hw] at hpart
    rcases List.mem_singleton.mp hpart with rfl
    exact not_strStarts_data (n := 15)
      (String.data_append "## Context Size Notice\n\n" _)
      (by decide) (by decide) (by decide)

/-- The not-a-repository error message never starts the File Changes
section. -/
theorem errorPart_not_fileChanges (d : String) :
    ¬ strStarts "## File Changes" ("Error: " ++ d ++ " is not inside a git repository.") := by
  refine not_strStarts_data (n := 1) (l := ("Error: " : String).data)
    (r := d.data ++ (" is not inside a git repository." : String).data)
    ?_ (by decide) (by decide) (by decide)
  simp only [String.data_append, List.append_assoc]

/-- C7: in query mode the handler never invokes `captureChanges` — no
such event appears in the trace on any path — and no part of the
returned result is a File Changes section, regardless of what the
agent did in the workspace. -/
theorem c7_query_mode_no_diff (env : Env) (repo : Repo) (prompt : String) :
    (∀ (sha : Nat) (w : Files),
      Event.captureChanges sha w ∉ (handler env repo prompt ToolMode.query).2) ∧
    (∀ part ∈ resultParts (handler env repo prompt ToolMode.query).1,
      ¬ strStarts "## File Changes" part) := by
  by_cases hrepo : env.isRepo = false
  · constructor
    · intro sha w
      simp [handler, hrepo]
    · intro part hpart
      simp only [handler, hrepo, if_pos, resultParts] at hpart
      rcases List.mem_singleton.mp hpart with rfl
      exact errorPart_not_fileChanges env.resolvedDir
  · have hrepo' : env.isRepo = true := by
      revert hrepo
      cases env.isRepo <;> simp
    by_cases hcreate : env.createOk = false
    · constructor
      · intro sha w
        simp [handler, hrepo', hcreate]
      · intro part hpart
        simp [handler, hrepo', hcreate, resultParts] at hpart
    · have hcreate' : env.createOk = true := by
        revert hcreate
        cases env.createOk <;> simp
      by_cases hhead : env.headShaOk = false
      · constructor
        · intro sha w
          simp [handler, hrepo', hcreate', hhead]
        · intro part hpart
          simp [handler, hrepo', hcreate', hhead, resultParts] at hpart
      · have hhead' : env.headShaOk = true := by
          revert hhead
          cases env.headShaOk <;> simp
        constructor
        · intro sha w
          simp [handler, hrepo', hcreate', hhead']
        · intro part hpart
          simp only [handler, hrepo', hcreate', hhead', resultParts, List.append_nil,
            List.nil_append, List.singleton_append, List.mem_cons, List.mem_append,
            Bool.true_eq_false, if_neg, ite_false, ite_true, Bool.false_eq_true,
            not_false_eq_true] at hpart
          rcases hpart with (rfl | hpart) | hpart
          · exact respPart_not_fileChanges _
          · exact warnParts_not_fileChanges env.agentExitCode env.agentStderr part hpart
          · exact sizeParts_not_fileChanges prompt part hpart

/-- C7 witness: on a concrete query-mode invocation, no
`captureChanges` event occurs and the response section (the only part
present) is not a File Changes section. -/
theorem c7_query_mode_witness :
    Event.captureChanges 1 [] ∉ (handler envBase repoBase "task" ToolMode.query).2 ∧
    noResponseNotice ∈ resultParts (handler envBase repoBase "task" ToolMode.query).1 ∧
    ¬ strStarts "## File Changes" noResponseNotice := by
  have hmem : noResponseNotice ∈ resultParts (handler envBase repoBase "task" ToolMode.query).1 := by
    simp [handler, envBase, rmAllOk, repoBase, resultParts, respPartOf, jsTruthy,
      runAgentActs, mkWorktree, lookupCommit, readAndRemoveResponse, lookupFile,
      RESPONSE_FILENAME, warnPartsOf, sizePartsOf, promptSizeWarning,
      PROMPT_SIZE_WARNING_THRESHOLD]
  exact ⟨(c7_query_mode_no_diff envBase repoBase "task").1 1 [],
    hmem,
    (c7_query_mode_no_diff envBase repoBase "task").2 noResponseNotice hmem⟩

/-- C10: when the external agent creates the response artifact with
empty content, `readAndRemoveResponse` returns the empty string, the
JavaScript truthiness check treats it as absent, the Agent Response
section shows the fixed no-response notice, and the artifact is still
deleted before diffing — the working files passed to `captureChanges`
no longer contain it. -/
theorem c10_empty_response (env : Env) (repo : Repo) (prompt : String) (mode : ToolMode)
    (hrepo : env.isRepo = true) (hcreate : env.createOk = true) (hhead : env.headShaOk = true)
    (hresp : lookupFile (runAgentActs env.agentActs (mkWorktree repo)).work
      RESPONSE_FILENAME = some "") :
    Event.readResponse (some "") ∈ (handler env repo prompt mode).2 ∧
    (resultParts (handler env repo prompt mode).1).head? = some noResponseNotice ∧
    (∀ (sha : Nat) (w : Files),
      Event.captureChanges sha w ∈ (handler env repo prompt mode).2 →
      lookupFile w RESPONSE_FILENAME = none) := by
  have hrr : readAndRemoveResponse (runAgentActs env.agentActs (mkWorktree repo))
      RESPONSE_FILENAME =
      (some "", { runAgentActs env.agentActs (mkWorktree repo) with
        work := removeFile (runAgentActs env.agentActs (mkWorktree repo)).work
          RESPONSE_FILENAME }) := by
    unfold readAndRemoveResponse
    rw [hresp]
  refine ⟨?_, ?_, ?_⟩
  · cases mode <;> simp [handler, hrepo, hcreate, hhead, hrr]
  · cases mode <;>
      simp [handler, hrepo, hcreate, hhead, hrr, resultParts, respPartOf, jsTruthy]
  · intro sha w hmem
    cases mode
    · have htr : (handler env repo prompt ToolMode.default).2 =
          [Event.genPath, Event.createWorktree,
           Event.getHeadSha (getHeadSha (mkWorktree repo)), Event.runAgent,
           Event.readResponse (some ""),
           Event.captureChanges (getHeadSha (mkWorktree repo))
             (removeFile (runAgentActs env.agentActs (mkWorktree repo)).work
               RESPONSE_FILENAME),
           Event.removeWorktree] := by
        simp [handler, hrepo, hcreate, hhead, hrr]
      rw [htr] at hmem
      simp at hmem
      rw [hmem.2]
      exact lookupFile_removeFile_self _ _
    · have htr : (handler env repo prompt ToolMode.query).2 =
          [Event.genPath, Event.createWorktree,
           Event.getHeadSha (getHeadSha (mkWorktree repo)), Event.runAgent,
           Event.readResponse (some ""), Event.removeWorktree] := by
        simp [handler, hrepo, hcreate, hhead, hrr]
      rw [htr] at hmem
      simp at hmem

/-- Environment where the agent creates the response artifact with
empty content. -/
def envEmptyResp : Env :=
  { envBase with agentActs := [AgentAct.write RESPONSE_FILENAME ""] }

/-- C10 witness: the empty-response-artifact behavior at a concrete
invocation. -/
theorem c10_empty_response_witness :
    lookupFile (runAgentActs envEmptyResp.agentActs (mkWorktree repoBase)).work
      RESPONSE_FILENAME = some "" ∧
    Event.readResponse (some "") ∈
      (handler envEmptyResp repoBase "task" ToolMode.default).2 ∧
    (resultParts (handler envEmptyResp repoBase "task" ToolMode.default).1).head? =
      some noResponseNotice := by
  have h : lookupFile (runAgentActs envEmptyResp.agentActs (mkWorktree repoBase)).work
      RESPONSE_FILENAME = some "" := by decide
  exact ⟨h,
    (c10_empty_response envEmptyResp repoBase "task" ToolMode.default rfl rfl rfl h).1,
    (c10_empty_response envEmptyResp repoBase "task" ToolMode.default rfl rfl rfl h).2.1⟩

/-- Every string occurs inside itself. -/
theorem containsStr_self (t : String) : containsStr t t :=
  ⟨[], [], by simp⟩

/-- Occurrence is preserved by prepending. -/
theorem containsStr_left (u : String) {s t : String} (h : containsStr s t) :
    containsStr (u ++ s) t := by
  obtain ⟨a, b, hab⟩ := h
  exact ⟨u.data ++ a, b, by rw [String.data_append, hab]; simp [List.append_assoc]⟩

/-- Occurrence is preserved by appending. -/
theorem containsStr_right (u : String) {s t : String} (h : containsStr s t) :
    containsStr (s ++ u) t := by
  obtain ⟨a, b, hab⟩ := h
  exact ⟨a, b ++ u.data, by rw [String.data_append, hab]; simp [List.append_assoc]⟩

/-- C1: in default mode the diff baseline passed to `captureChanges` is
the worktree head recorded right after worktree creation and before the
agent runs — visible in the trace, where `getHeadSha` returns the
original head and `captureChanges` receives that same sha even though
the agent committed a new sha — and consequently, when the agent
creates a new file and commits it before exiting, the returned result
still contains a File Changes part with that file name and content. -/
theorem c1_base_sha_diff (env : Env) (repo : Repo) (prompt X c : String) (s : Nat)
    (base : Files)
    (hrepo : env.isRepo = true) (hcreate : env.createOk = true) (hhead : env.headShaOk = true)
    (hadd : env.addOk = true) (hdiff : env.diffOk = true)
    (hacts : env.agentActs = [AgentAct.write X c, AgentAct.commit s])
    (hbase : lookupCommit repo.commits repo.head = some base)
    (hX : lookupFile base X = none)
    (hXresp : X ≠ RESPONSE_FILENAME)
    (hresp : lookupFile base RESPONSE_FILENAME = none)
    (hs : s ≠ repo.head)
    (hwf : ∀ p ∈ base, lookupFile base p.1 = some p.2) :
    (handler env repo prompt ToolMode.default).2 =
      [Event.genPath, Event.createWorktree, Event.getHeadSha repo.head, Event.runAgent,
       Event.readResponse none,
       Event.captureChanges repo.head (setFile base X c), Event.removeWorktree] ∧
    ∃ part ∈ resultParts (handler env repo prompt ToolMode.default).1,
      containsStr part X ∧ containsStr part c := by
  have hwt0 : mkWorktree repo = ⟨repo.commits, repo.head, base, base⟩ := by
    simp [mkWorktree, hbase]
  have hwt1 : runAgentActs env.agentActs (mkWorktree repo) =
      ⟨(s, setFile base X c) :: repo.commits, s, setFile base X c, setFile base X c⟩ := by
    rw [hacts, hwt0]
    rfl
  have hrne : RESPONSE_FILENAME ≠ X := fun h => hXresp h.symm
  have hlookW : lookupFile (setFile base X c) RESPONSE_FILENAME = none := by
    rw [lookupFile_setFile_ne base c hrne]
    exact hresp
  have hrr : readAndRemoveResponse (runAgentActs env.agentActs (mkWorktree repo))
      RESPONSE_FILENAME =
      (none, ⟨(s, setFile base X c) :: repo.commits, s, setFile base X c,
        setFile base X c⟩) := by
    rw [hwt1]
    simp [readAndRemoveResponse, hlookW]
  have hlookC : lookupCommit ((s, setFile base X c) :: repo.commits) repo.head = some base := by
    simp [lookupCommit, hs, hbase]
  have hde : diffEntries base (setFile base X c) = [(X, c)] := by
    show diffEntries base ((X, c) :: removeFile base X) = [(X, c)]
    have h1 : ¬ lookupFile base X = some c := by
      rw [hX]
      exact fun h => Option.noConfusion h
    simp only [diffEntries, if_neg h1]
    rw [diffEntries_eq_nil (fun p hp => hwf p (mem_of_mem_removeFile hp))]
  have hdel : deletedEntries (setFile base X c) base = [] := by
    apply deletedEntries_eq_nil
    intro p hp
    have hpl := hwf p hp
    have hpx : p.1 ≠ X := by
      intro he
      rw [he, hX] at hpl
      exact Option.noConfusion hpl
    rw [lookupFile_setFile_ne base c hpx, hpl]
    exact fun h => Option.noConfusion h
  have hrender : renderDiff base (setFile base X c) =
      "diff --git a/" ++ X ++ " b/" ++ X ++ "\n+++ b/" ++ X ++ "\n+" ++ c ++ "\n" ++
        "" ++ "" := by
    unfold renderDiff
    rw [hde, hdel]
    rfl
  have htrimne : jsTrim (renderDiff base (setFile base X c)) ≠ "" := by
    apply jsTrim_ne_empty (a := 'd')
    · rw [hrender]
      simp only [String.data_append, List.append_assoc]
      exact List.mem_append.mpr (Or.inl (by decide))
    · decide
  have hsha : getHeadSha (mkWorktree repo) = repo.head := rfl
  have hcap : captureChanges env.addOk env.diffOk
      ⟨(s, setFile base X c) :: repo.commits, s, setFile base X c, setFile base X c⟩
      repo.head =
      (renderDiff base (setFile base X c),
       ⟨(s, setFile base X c) :: repo.commits, s, setFile base X c, setFile base X c⟩) := by
    rw [hadd, hdiff]
    simp [captureChanges, hlookC]
  have hout : handler env repo prompt ToolMode.default =
      (Outcome.result (noResponseNotice ::
        ("## File Changes (unified diff)\n\n```diff\n" ++
          renderDiff base (setFile base X c) ++ "\n```") ::
        (warnPartsOf env.agentExitCode env.agentStderr ++ sizePartsOf prompt)) false,
       [Event.genPath, Event.createWorktree, Event.getHeadSha repo.head, Event.runAgent,
        Event.readResponse none,
        Event.captureChanges repo.head (setFile base X c), Event.removeWorktree]) := by
    simp [handler, hrepo, hcreate, hhead, hsha, hrr, hcap, htrimne, respPartOf, jsTruthy]
  constructor
  · rw [hout]
  · rw [hout]
    refine ⟨"## File Changes (unified diff)\n\n```diff\n" ++
      renderDiff base (setFile base X c) ++ "\n```", ?_, ?_, ?_⟩
    · simp [resultParts]
    · apply containsStr_right
      apply containsStr_left
      rw [hrender]
      apply containsStr_right
      apply containsStr_right
      apply containsStr_right
      apply containsStr_right
      apply containsStr_right
      apply containsStr_left
      exact containsStr_self X
    · apply containsStr_right
      apply containsStr_left
      rw [hrender]
      apply containsStr_right
      apply containsStr_right
      apply containsStr_right
      apply containsStr_left
      exact containsStr_self c

/-- Environment where the agent writes a new file and commits it before
exiting. -/
def envC1 : Env :=
  { envBase with agentActs := [AgentAct.write "foo.txt" "bar", AgentAct.commit 2] }

/-- C1 witness: the committed-file regression case at a concrete
invocation — the diff baseline is the pre-run head sha 1, not the
agent's commit 2, and the result contains the committed file and its
content. -/
theorem c1_base_sha_diff_witness :
    envC1.agentActs = [AgentAct.write "foo.txt" "bar", AgentAct.commit 2] ∧
    (handler envC1 repoBase "task" ToolMode.default).2 =
      [Event.genPath, Event.createWorktree, Event.getHeadSha repoBase.head, Event.runAgent,
       Event.readResponse none,
       Event.captureChanges repoBase.head
         (setFile [("README.md", "hello")] "foo.txt" "bar"),
       Event.removeWorktree] ∧
    ∃ part ∈ resultParts (handler envC1 repoBase "task" ToolMode.default).1,
      containsStr part "foo.txt" ∧ containsStr part "bar" := by
  have h := c1_base_sha_diff envC1 repoBase "task" "foo.txt" "bar" 2
    [("README.md", "hello")] rfl rfl rfl rfl rfl rfl (by decide) (by decide) (by decide)
    (by decide) (by decide) (by decide)
  exact ⟨rfl, h.1, h.2⟩
